import Mathlib

/-!
# A shallow embedding of `typescript-result-monad`

This file embeds the core of the repository — the `Result` container
(`src/result.ts`), the error taxonomy (`src/errors.ts`) and the free
combinators (`combineResults`, `tryCatchAsync`, `retry`, …) — as executable
Lean definitions, and proves the specification's claims about them.

Modelling conventions:
* A JavaScript `Error` object is modelled by `TSRM.JsError`, recording the
  fields the claims talk about: `name`, `message` and (for
  `CancellationError`) `operationId`.  The optional `cause` chain is not
  used by any claim and is omitted.
* The TypeScript class constructors become Lean functions `mkResultError`,
  `mkTechnicalError`, … whose bodies follow the `super(...)` chaining of the
  source, including `CancellationError`'s `Object.defineProperty` override of
  `message`.
* `Result<T, E>`'s constructor is private; the only reachable states are the
  ones produced by the factories `ok`, `fail` and `cancelled` and by the
  operators (which rebuild results through those factories).  For a success
  `_error` is `undefined` and for a failure `_value` is `undefined`, and every
  failure carries an actual error object, so the reachable state space is
  exactly `okRes (value? : Option T) | failRes (error : JsError) (c : Bool)`.
  A possibly-absent value (`ok()` is legal) is an `Option`.
* Asynchronous code is embedded by making the behaviour of the awaited
  computation an explicit parameter: `FnOutcome` says whether a call
  returns/resolves or throws/rejects, `AbortSignal` records whether the
  caller's signal was already aborted at the eager check and whether it fires
  before the racing promise settles.  Operators that take a callback return,
  besides the `Result`, the number of times the callback was invoked.
* A thrown JavaScript value is either an `Error` object or a non-`Error`
  value, of which the code only ever uses `String(x)`; `Thrown` records that.
-/

namespace TSRM

/-- Model of a JavaScript `Error` object as the library observes it:
its `name`, its `message`, and the `operationId` field that
`CancellationError` adds (absent, i.e. `none`, on every other kind). -/
structure JsError where
  name : String
  message : String
  operationId : Option String
deriving Repr, DecidableEq

/-- Constructor `new Error(message)` — a plain JavaScript error. -/
def mkError (message : String) : JsError :=
  { name := "Error", message := message, operationId := none }

/-- The `ResultError` constructor: `super(message)` then `this.name = 'ResultError'`. -/
def mkResultError (message : String) : JsError :=
  { name := "ResultError", message := message, operationId := none }

/-- The `ValidationError` constructor: chains `super(`Validation Error: ${message}`)`. -/
def mkValidationError (message : String) : JsError :=
  { mkResultError ("Validation Error: " ++ message) with name := "ValidationError" }

/-- The `NotFoundError` constructor: renders `" with id '<id>'"` only when `id` is present. -/
def mkNotFoundError (resource : String) (id : Option String) : JsError :=
  let idMessage := match id with
    | some i => " with id '" ++ i ++ "'"
    | none => ""
  { mkResultError ("Not Found: " ++ resource ++ idMessage ++ " could not be found") with
      name := "NotFoundError" }

/-- The `TechnicalError` constructor: chains `super(`Technical Error: ${message}`)`. -/
def mkTechnicalError (message : String) : JsError :=
  { mkResultError ("Technical Error: " ++ message) with name := "TechnicalError" }

/-- The `TimeoutError` constructor: extends `TechnicalError`, so its message keeps
the `"Technical Error: "` prefix contributed by the base class. -/
def mkTimeoutError (operation : String) (timeoutMs : Nat) : JsError :=
  { mkTechnicalError
      ("Operation '" ++ operation ++ "' timed out after " ++ toString timeoutMs ++ "ms") with
      name := "TimeoutError" }

/-- The `CancellationError` constructor: extends `TechnicalError`, passing it
`"Cancellation: " ++ message` (so the inherited message would be
`"Technical Error: Cancellation: " ++ message`), then overrides the
`message` property with `Object.defineProperty` to exactly
`"Cancellation: " ++ message`, removing the `"Technical Error: "` prefix. -/
def mkCancellationError (message : String) (operationId : Option String) : JsError :=
  let base := mkTechnicalError ("Cancellation: " ++ message)
  { base with
      name := "CancellationError"
      operationId := operationId
      message := "Cancellation: " ++ message }

/-- The reachable states of the `Result<T, E>` class (its constructor is
private; see the module docstring): a success holding a possibly-absent
value, or a failure holding its error and the `_isCancelled` flag. -/
inductive Result (T : Type) : Type where
  | okRes (value? : Option T)
  | failRes (error : JsError) (cancelledFlag : Bool)
deriving Repr, DecidableEq

namespace Result

variable {T U : Type}

/-- Factory `Result.ok(value?)` — `new Result(true, undefined, value)`. -/
def ok (value? : Option T) : Result T := .okRes value?

/-- Factory `Result.fail(error)` — `new Result(false, error)`, cancellation flag false. -/
def fail (error : JsError) : Result T := .failRes error false

/-- Factory `Result.cancelled(operationId?)` —
`new Result(false, new CancellationError('Operation was cancelled', operationId), undefined, true)`. -/
def cancelled (operationId : Option String) : Result T :=
  .failRes (mkCancellationError "Operation was cancelled" operationId) true

/-- The public `isSuccess` field. -/
def isSuccess : Result T → Bool
  | .okRes _ => true
  | .failRes _ _ => false

/-- The public `isFailure` field (the constructor sets it to `!isSuccess`). -/
def isFailure (r : Result T) : Bool := !r.isSuccess

/-- The `isCancelled` getter, returning the `_isCancelled` field. -/
def isCancelled : Result T → Bool
  | .okRes _ => false
  | .failRes _ c => c

/-- The raw `_value` field (`undefined` on failures). -/
def value? : Result T → Option T
  | .okRes v => v
  | .failRes _ _ => none

/-- The raw `_error` field (`undefined` on successes). -/
def error? : Result T → Option JsError
  | .okRes _ => none
  | .failRes e _ => some e

/-- The `value` getter: throws on a failure, otherwise returns `_value as T`. -/
def value : Result T → Except String (Option T)
  | .okRes v => .ok v
  | .failRes e _ =>
      .error ("Cannot access value of a failed result. Error: " ++ e.message)

/-- The `error` getter: throws on a success, otherwise returns `_error as E`. -/
def error : Result T → Except String JsError
  | .okRes _ => .error "Cannot access error of a successful result"
  | .failRes e _ => .ok e

/-- Operator `map(f)`: on failure `Result.fail(this._error)`, on success
`Result.ok(f(this._value as T))`.  The transformer receives the raw stored
value, hence `Option T → Option U`. -/
def map (r : Result T) (f : Option T → Option U) : Result U :=
  match r with
  | .failRes e _ => fail e
  | .okRes v => ok (f v)

/-- Operator `mapError(f)`: on success `Result.ok(this._value)`, on failure
`Result.fail(f(this._error as E))`. -/
def mapError (r : Result T) (f : JsError → JsError) : Result T :=
  match r with
  | .okRes v => ok v
  | .failRes e _ => fail (f e)

/-- Operator `flatMap(f)`: on failure `Result.fail(this._error)`, on success
`f(this._value as T)` returned directly. -/
def flatMap (r : Result T) (f : Option T → Result U) : Result U :=
  match r with
  | .failRes e _ => fail e
  | .okRes v => f v

/-- Variant of `flatMap` instrumented with the number of times the transformer `f` was
invoked (the body is the same as `flatMap`). -/
def flatMapCount (r : Result T) (f : Option T → Result U) : Result U × Nat :=
  match r with
  | .failRes e _ => (fail e, 0)
  | .okRes v => (f v, 1)

end Result

/-- A thrown / rejected JavaScript value: either an `Error` object, or a
non-`Error` value of which the code only ever uses `String(x)`. -/
inductive Thrown : Type where
  | errObj (e : JsError)
  | nonError (stringRep : String)
deriving Repr, DecidableEq

/-- Normalization `error instanceof Error ? error : new Error(String(error))` — the
normalization used by `fromThrowable`, `fromPromise`, `asyncMap` and
`asyncFlatMap`. -/
def normalizeThrownError : Thrown → JsError
  | .errObj e => e
  | .nonError s => mkError s

/-- Normalization `error instanceof Error ? error : new TechnicalError(String(error))` —
the normalization used by `tryCatchAsync`, `promisifyWithResult` and
`retry`. -/
def normalizeThrownTechnical : Thrown → JsError
  | .errObj e => e
  | .nonError s => mkTechnicalError s

/-- The observable behaviour of calling a supplied function (or awaiting a
supplied promise): it returns/resolves with a value, or throws/rejects. -/
inductive FnOutcome (A : Type) : Type where
  | returns (a : A)
  | throws (t : Thrown)
deriving Repr, DecidableEq

/-- The behaviour of a caller-supplied `AbortSignal` relative to one raced
operation: `aborted` is the signal state at the operator's eager check, and
`firesDuringRace` says whether, when the operator races the operation
against the signal, the abort event settles the race first. -/
structure AbortSignal where
  aborted : Bool
  firesDuringRace : Bool
deriving Repr, DecidableEq

namespace Result

variable {T U : Type}

/-- Operator `asyncMap(f, abortSignal?)` (src/result.ts).  The second component counts
invocations of the transformer `f`, whose behaviour (resolve or reject) is
the explicit `FnOutcome` it returns.  Branches in source order: a failure
propagates without invoking `f`; an already-aborted signal yields a
cancelled result without invoking `f`; with a signal, the transformer's
promise is raced against an abort-rejection (an abort firing first is caught
and, `abortSignal.aborted` being true, yields a cancelled result; a
rejection of `f` with the signal never firing is normalized to a failure);
without a signal the promise is simply awaited with the same catch. -/
def asyncMap (r : Result T) (f : Option T → FnOutcome (Option U))
    (abortSignal : Option AbortSignal) : Result U × Nat :=
  match r with
  | .failRes e _ => (fail e, 0)
  | .okRes v =>
    match abortSignal with
    | some sig =>
      if sig.aborted then (cancelled (some "Operation was aborted"), 0)
      else if sig.firesDuringRace then (cancelled (some "Operation was aborted"), 1)
      else
        match f v with
        | .returns u => (ok u, 1)
        | .throws t => (fail (normalizeThrownError t), 1)
    | none =>
      match f v with
      | .returns u => (ok u, 1)
      | .throws t => (fail (normalizeThrownError t), 1)

/-- Operator `asyncFlatMap(f, abortSignal?)` (src/result.ts): same structure as
`asyncMap`, except that a resolving transformer yields its inner `Result`
directly (`return await resultPromise`). -/
def asyncFlatMap (r : Result T) (f : Option T → FnOutcome (Result U))
    (abortSignal : Option AbortSignal) : Result U × Nat :=
  match r with
  | .failRes e _ => (fail e, 0)
  | .okRes v =>
    match abortSignal with
    | some sig =>
      if sig.aborted then (cancelled (some "Operation was aborted"), 0)
      else if sig.firesDuringRace then (cancelled (some "Operation was aborted"), 1)
      else
        match f v with
        | .returns inner => (inner, 1)
        | .throws t => (fail (normalizeThrownError t), 1)
    | none =>
      match f v with
      | .returns inner => (inner, 1)
      | .throws t => (fail (normalizeThrownError t), 1)

/-- Static `Result.fromPromise(promise, abortSignal?)`: the cancellation
race of `asyncMap` applied to an external promise whose behaviour is the
explicit `FnOutcome` argument. -/
def fromPromise (promise : FnOutcome (Option U)) (abortSignal : Option AbortSignal) :
    Result U :=
  match abortSignal with
  | some sig =>
    if sig.aborted then cancelled (some "Operation was aborted")
    else if sig.firesDuringRace then cancelled (some "Operation was aborted")
    else
      match promise with
      | .returns u => ok u
      | .throws t => fail (normalizeThrownError t)
  | none =>
    match promise with
    | .returns u => ok u
    | .throws t => fail (normalizeThrownError t)

/-- Static `Result.fromThrowable(f)`: `Result.ok(f())`, any thrown value
normalized with `new Error(String(error))` when it is not an `Error`. -/
def fromThrowable (f : FnOutcome (Option U)) : Result U :=
  match f with
  | .returns u => ok u
  | .throws t => fail (normalizeThrownError t)

end Result

/-- The exact shape `toJSON()` produces: `{ success: true, value }` or
`{ success: false, error: { name, message } }`. -/
inductive ResultJSON (T : Type) : Type where
  | success (value : Option T)
  | failure (name : String) (message : String)
deriving Repr, DecidableEq

/-- JavaScript `x || d` for a string `x`: the default is taken when the
field is absent — on a JS `Error` an unset `message` reads as the empty
string, which is falsy (and `_error?.name` / `_error?.message` of an absent
error reads as `undefined`; a reachable failure always carries an error, so
that case does not arise). -/
def jsStringOr (x : String) (d : String) : String :=
  if x = "" then d else x

/-- Method `toJSON()` (src/result.ts): `{ success: true, value: this._value }` on a
success, otherwise `{ success: false, error: { name: this._error?.name ||
'Error', message: this._error?.message || 'Unknown error' } }`. -/
def Result.toJSON {T : Type} : Result T → ResultJSON T
  | .okRes v => .success v
  | .failRes e _ => .failure (jsStringOr e.name "Error") (jsStringOr e.message "Unknown error")

/-- The loop of `combineResults` (src/utils.ts): `values` is the accumulator
array; the first failing element is returned as `Result.fail(result.error)`,
a succeeding element pushes `result.value` (the raw stored value). -/
def combineLoop {T : Type} (values : List (Option T)) :
    List (Result T) → Result (List (Option T))
  | [] => Result.ok (some values)
  | .failRes e _ :: _ => Result.fail e
  | .okRes v :: rest => combineLoop (values ++ [v]) rest

/-- Combinator `combineResults(results)` (src/utils.ts). -/
def combineResults {T : Type} (results : List (Result T)) : Result (List (Option T)) :=
  combineLoop [] results

/-- Combinator `tryCatchAsync(fn)` (src/utils.ts): await `fn()`, `Result.ok` on
resolution, and on rejection `Result.fail(error instanceof Error ? error :
new TechnicalError(String(error)))`. -/
def tryCatchAsync {T : Type} (fn : FnOutcome (Option T)) : Result T :=
  match fn with
  | .returns v => Result.ok v
  | .throws t => Result.fail (normalizeThrownTechnical t)

/-- Whether an attempt of `retry`'s `fn` counts as failing: a returned
failure and a thrown exception are treated identically. -/
def attemptFails {T : Type} : FnOutcome (Result T) → Bool
  | .returns r => r.isFailure
  | .throws _ => true

/-- The `lastError` that `retry` records for a failing attempt: the returned
failure's error, or the thrown value normalized with
`new TechnicalError(String(error))`.  (On a returned success `lastError` is
not written; that branch is unreachable under the hypotheses that use this
function.) -/
def lastFailureError {T : Type} : FnOutcome (Result T) → JsError
  | .returns (.failRes e _) => e
  | .returns (.okRes _) => mkError "unreachable: retry returns a success directly"
  | .throws t => normalizeThrownTechnical t

/-- The observable trace of one `retry` run: the returned `Result`, how many
times `fn` was invoked, and the sequence of waits (in ms) performed between
attempts, in order. -/
structure RetryTrace (T : Type) where
  result : Result T
  calls : Nat
  waits : List Nat
deriving Repr, DecidableEq

/-- The loop of `retry` (src/utils.ts), at iteration `attempt` with
`remaining` further iterations allowed (`remaining = maxAttempts - attempt`)
and current backoff delay `currentDelay`.  `fn` is indexed by the attempt
number; `waits` accumulates the waits already performed.  A returned success
is returned as-is; otherwise the attempt's error becomes `lastError` and,
when the attempt is non-final, the loop waits `currentDelay` and doubles it.
After the final attempt, `Result.fail(lastError || ...)` is returned —
`lastError` is always set there, the loop having run at least once. -/
def retryGo {T : Type} (fn : Nat → FnOutcome (Result T)) :
    Nat → Nat → Nat → List Nat → RetryTrace T
  | attempt, 0, _, waits =>
    match fn attempt with
    | .returns (.okRes v) => ⟨.okRes v, attempt + 1, waits⟩
    | .returns (.failRes e _) => ⟨Result.fail e, attempt + 1, waits⟩
    | .throws t => ⟨Result.fail (normalizeThrownTechnical t), attempt + 1, waits⟩
  | attempt, r + 1, currentDelay, waits =>
    match fn attempt with
    | .returns (.okRes v) => ⟨.okRes v, attempt + 1, waits⟩
    | .returns (.failRes _ _) =>
        retryGo fn (attempt + 1) r (currentDelay * 2) (waits ++ [currentDelay])
    | .throws _ =>
        retryGo fn (attempt + 1) r (currentDelay * 2) (waits ++ [currentDelay])

/-- Combinator `retry(fn, options)` (src/utils.ts): `maxAttempts` defaults to 3 and
`delayMs` to 300; the loop runs `attempt = 0 .. maxAttempts`. -/
def retry {T : Type} (fn : Nat → FnOutcome (Result T))
    (maxAttempts? delayMs? : Option Nat) : RetryTrace T :=
  retryGo fn 0 (maxAttempts?.getD 3) (delayMs?.getD 300) []

/-! ## Helper lemmas -/

theorem combineLoop_all_ok {T : Type} :
    ∀ (rs : List (Result T)) (acc : List (Option T)),
      (∀ r ∈ rs, r.isSuccess = true) →
      combineLoop acc rs = Result.ok (some (acc ++ rs.map Result.value?))
  | [], acc, _ => by simp [combineLoop]
  | r :: rest, acc, h => by
      match r with
      | .failRes e c => exact absurd (h _ (List.mem_cons_self _ _)) (by simp [Result.isSuccess])
      | .okRes v =>
        have ih := combineLoop_all_ok rest (acc ++ [v]) (fun x hx => h x (List.mem_cons_of_mem _ hx))
        simp only [combineLoop, ih, List.map_cons, Result.value?, List.append_assoc,
          List.singleton_append]

theorem combineLoop_first_fail {T : Type} :
    ∀ (l1 : List (Result T)) (acc : List (Option T)) (e : JsError) (c : Bool)
      (l2 : List (Result T)),
      (∀ r ∈ l1, r.isSuccess = true) →
      combineLoop acc (l1 ++ .failRes e c :: l2) = Result.fail e
  | [], acc, e, c, l2, _ => by simp [combineLoop]
  | r :: rest, acc, e, c, l2, h => by
      match r with
      | .failRes e' c' => exact absurd (h _ (List.mem_cons_self _ _)) (by simp [Result.isSuccess])
      | .okRes v =>
        have ih := combineLoop_first_fail rest (acc ++ [v]) e c l2
          (fun x hx => h x (List.mem_cons_of_mem _ hx))
        simpa [combineLoop] using ih

/-- The sequence of waits `d, 2d, 4d, …` of length `r + 1`, decomposed at its
head: the remaining waits are the same sequence started at `d * 2`. -/
theorem waitsSeq_succ (d r : Nat) :
    (List.range (r + 1)).map (fun i => d * 2 ^ i) =
      d :: (List.range r).map (fun i => d * 2 * 2 ^ i) := by
  rw [List.range_succ_eq_map, List.map_cons, List.map_map]
  refine congrArg₂ _ (by simp) ?_
  refine List.map_congr_left (fun i _ => ?_)
  show d * 2 ^ (i + 1) = d * 2 * 2 ^ i
  ring

/-- Step: `retryGo` when the current attempt returns a success: the loop returns
that very `Result`, for any number of remaining iterations. -/
theorem retryGo_eq_ok {T : Type} (fn : Nat → FnOutcome (Result T)) (v : Option T)
    (attempt remaining d : Nat) (waits : List Nat)
    (h : fn attempt = .returns (.okRes v)) :
    retryGo fn attempt remaining d waits = ⟨.okRes v, attempt + 1, waits⟩ := by
  cases remaining <;> (unfold retryGo; rw [h])

/-- Step: `retryGo` at the final attempt, when it returns a failure. -/
theorem retryGo_eq_fail0 {T : Type} (fn : Nat → FnOutcome (Result T)) (e : JsError) (c : Bool)
    (attempt d : Nat) (waits : List Nat)
    (h : fn attempt = .returns (.failRes e c)) :
    retryGo fn attempt 0 d waits = ⟨Result.fail e, attempt + 1, waits⟩ := by
  unfold retryGo; rw [h]

/-- Step: `retryGo` at the final attempt, when it throws. -/
theorem retryGo_eq_throw0 {T : Type} (fn : Nat → FnOutcome (Result T)) (t : Thrown)
    (attempt d : Nat) (waits : List Nat)
    (h : fn attempt = .throws t) :
    retryGo fn attempt 0 d waits =
      ⟨Result.fail (normalizeThrownTechnical t), attempt + 1, waits⟩ := by
  unfold retryGo; rw [h]

/-- Step: `retryGo` at a non-final failing attempt: wait `d`, double the delay and
move to the next attempt. -/
theorem retryGo_eq_failS {T : Type} (fn : Nat → FnOutcome (Result T)) (e : JsError) (c : Bool)
    (attempt r d : Nat) (waits : List Nat)
    (h : fn attempt = .returns (.failRes e c)) :
    retryGo fn attempt (r + 1) d waits = retryGo fn (attempt + 1) r (d * 2) (waits ++ [d]) := by
  conv_lhs => unfold retryGo
  rw [h]

/-- Step: `retryGo` at a non-final throwing attempt: wait `d`, double the delay and
move to the next attempt. -/
theorem retryGo_eq_throwS {T : Type} (fn : Nat → FnOutcome (Result T)) (t : Thrown)
    (attempt r d : Nat) (waits : List Nat)
    (h : fn attempt = .throws t) :
    retryGo fn attempt (r + 1) d waits = retryGo fn (attempt + 1) r (d * 2) (waits ++ [d]) := by
  conv_lhs => unfold retryGo
  rw [h]

theorem retryGo_calls_le {T : Type} (fn : Nat → FnOutcome (Result T)) :
    ∀ (remaining attempt currentDelay : Nat) (waits : List Nat),
      (retryGo fn attempt remaining currentDelay waits).calls ≤ attempt + remaining + 1
  | 0, attempt, d, waits => by
      match h : fn attempt with
      | .returns (.okRes v) => rw [retryGo_eq_ok fn v _ _ _ _ h]
      | .returns (.failRes e c) => rw [retryGo_eq_fail0 fn e c _ _ _ h]
      | .throws t => rw [retryGo_eq_throw0 fn t _ _ _ h]
  | r + 1, attempt, d, waits => by
      match h : fn attempt with
      | .returns (.okRes v) =>
          rw [retryGo_eq_ok fn v _ _ _ _ h]
          show attempt + 1 <= attempt + (r + 1) + 1
          omega
      | .returns (.failRes e c) =>
          have ih := retryGo_calls_le fn r (attempt + 1) (d * 2) (waits ++ [d])
          rw [retryGo_eq_failS fn e c _ _ _ _ h]
          omega
      | .throws t =>
          have ih := retryGo_calls_le fn r (attempt + 1) (d * 2) (waits ++ [d])
          rw [retryGo_eq_throwS fn t _ _ _ _ h]
          omega

theorem retryGo_all_fail {T : Type} (fn : Nat → FnOutcome (Result T)) :
    ∀ (remaining attempt currentDelay : Nat) (waits : List Nat),
      (∀ j, j ≤ remaining → attemptFails (fn (attempt + j)) = true) →
      retryGo fn attempt remaining currentDelay waits =
        ⟨Result.fail (lastFailureError (fn (attempt + remaining))), attempt + remaining + 1,
          waits ++ (List.range remaining).map (fun i => currentDelay * 2 ^ i)⟩
  | 0, attempt, d, waits, h => by
      have h0 := h 0 (Nat.le_refl 0)
      rw [Nat.add_zero] at h0
      match hfn : fn attempt with
      | .returns (.okRes v) =>
          rw [hfn] at h0
          simp [attemptFails, Result.isFailure, Result.isSuccess] at h0
      | .returns (.failRes e c) =>
          rw [retryGo_eq_fail0 fn e c _ _ _ hfn]
          simp [lastFailureError]
      | .throws t =>
          rw [retryGo_eq_throw0 fn t _ _ _ hfn]
          simp [lastFailureError]
  | r + 1, attempt, d, waits, h => by
      have h0 := h 0 (Nat.zero_le _)
      rw [Nat.add_zero] at h0
      have hrec : ∀ j, j ≤ r → attemptFails (fn (attempt + 1 + j)) = true := by
        intro j hj
        have hj1 := h (j + 1) (by omega)
        rwa [show attempt + (j + 1) = attempt + 1 + j by omega] at hj1
      have ih := retryGo_all_fail fn r (attempt + 1) (d * 2) (waits ++ [d]) hrec
      have harith : attempt + 1 + r = attempt + (r + 1) := by omega
      match hfn : fn attempt with
      | .returns (.okRes v) =>
          rw [hfn] at h0
          simp [attemptFails, Result.isFailure, Result.isSuccess] at h0
      | .returns (.failRes e c) =>
          rw [retryGo_eq_failS fn e c _ _ _ _ hfn, ih, waitsSeq_succ, harith]
          simp [List.append_assoc]
      | .throws t =>
          rw [retryGo_eq_throwS fn t _ _ _ _ hfn, ih, waitsSeq_succ, harith]
          simp [List.append_assoc]

/-- Step: `retryGo` when the first succeeding attempt is `k` steps ahead: all
earlier attempts fail, attempt `attempt + k` returns the success `r`. -/
theorem retryGo_first_success {T : Type} (fn : Nat → FnOutcome (Result T)) :
    ∀ (k attempt remaining currentDelay : Nat) (waits : List Nat) (v : Option T),
      k ≤ remaining →
      fn (attempt + k) = .returns (.okRes v) →
      (∀ i, i < k → attemptFails (fn (attempt + i)) = true) →
      retryGo fn attempt remaining currentDelay waits =
        ⟨.okRes v, attempt + k + 1,
          waits ++ (List.range k).map (fun i => currentDelay * 2 ^ i)⟩
  | 0, attempt, remaining, d, waits, v, _, hk, _ => by
      rw [Nat.add_zero] at hk ⊢
      rw [retryGo_eq_ok fn v _ _ _ _ hk]
      simp
  | k + 1, attempt, remaining, d, waits, v, hle, hk, hfail => by
      have h0 := hfail 0 (by omega)
      rw [Nat.add_zero] at h0
      obtain ⟨r, rfl⟩ : ∃ r, remaining = r + 1 := ⟨remaining - 1, by omega⟩
      have hrecfail : ∀ i, i < k → attemptFails (fn (attempt + 1 + i)) = true := by
        intro i hi
        have hi1 := hfail (i + 1) (by omega)
        rwa [show attempt + (i + 1) = attempt + 1 + i by omega] at hi1
      have hk' : fn (attempt + 1 + k) = .returns (.okRes v) := by
        rwa [show attempt + 1 + k = attempt + (k + 1) by omega]
      have ih := retryGo_first_success fn k (attempt + 1) r (d * 2) (waits ++ [d]) v
        (by omega) hk' hrecfail
      have harith : attempt + 1 + k = attempt + (k + 1) := by omega
      match hfn : fn attempt with
      | .returns (.okRes w) =>
          rw [hfn] at h0
          simp [attemptFails, Result.isFailure, Result.isSuccess] at h0
      | .returns (.failRes e c) =>
          rw [retryGo_eq_failS fn e c _ _ _ _ hfn, ih, waitsSeq_succ, harith]
          simp [List.append_assoc]
      | .throws t =>
          rw [retryGo_eq_throwS fn t _ _ _ _ hfn, ih, waitsSeq_succ, harith]
          simp [List.append_assoc]

/-- A message of the form `"Cancellation: " ++ m` never carries the
`"Technical Error: "` prefix, whatever `m` is (the two fixed parts disagree
already at their first character). -/
theorem cancellation_no_technical_head (m s : String) :
    "Cancellation: " ++ m ≠ "Technical Error: " ++ s := by
  intro h
  have h2 := congrArg (fun t => t.data.head?) h
  simp [String.data_append] at h2

/-! ## The specification's claims -/

/-- C1: for every `fn` and options `{maxAttempts := n, delayMs := d}`,
`retry` invokes `fn` at most `n + 1` times; it returns the first success
`fn` produces, stopping further attempts after `k + 1` calls when the first
success is at attempt `k`; if every attempt fails (returned failures and
thrown exceptions treated alike) it returns the last observed failure after
exactly `n + 1` calls; and the waits performed between consecutive attempts
are exactly `d, 2d, 4d, …` (`d * 2 ^ i` before attempt `i + 1`), with no
wait after the final attempt. -/
theorem C1_retry_attempts_and_backoff {T : Type}
    (fn : Nat → FnOutcome (Result T)) (n d : Nat) :
    (retry fn (some n) (some d)).calls ≤ n + 1
    ∧ ((∀ i, i ≤ n → attemptFails (fn i) = true) →
        retry fn (some n) (some d) =
          ⟨Result.fail (lastFailureError (fn n)), n + 1,
            (List.range n).map (fun i => d * 2 ^ i)⟩)
    ∧ (∀ (k : Nat) (v : Option T),
        k ≤ n → fn k = .returns (.okRes v) →
        (∀ i, i < k → attemptFails (fn i) = true) →
        retry fn (some n) (some d) =
          ⟨.okRes v, k + 1, (List.range k).map (fun i => d * 2 ^ i)⟩) := by
  refine ⟨?_, ?_, ?_⟩
  · have h := retryGo_calls_le fn n 0 d []
    simpa [retry] using h
  · intro hfail
    have h := retryGo_all_fail fn n 0 d [] (fun j hj => by simpa using hfail j hj)
    simpa [retry] using h
  · intro k v hk hsucc hfail
    have h := retryGo_first_success fn k 0 n d [] v hk (by simpa using hsucc)
      (fun i hi => by simpa using hfail i hi)
    simpa [retry] using h

/-- Witness for C1: a function that always returns a failure, retried with
`maxAttempts := 2` and `delayMs := 10`, is invoked exactly 3 times, returns
the last failure, and waits 10ms then 20ms between attempts. -/
theorem C1_retry_attempts_and_backoff_witness :
    retry (T := Nat) (fun _ => .returns (Result.fail (mkError "boom"))) (some 2) (some 10) =
      ⟨Result.fail (mkError "boom"), 3, [10, 20]⟩ := by
  have h := (C1_retry_attempts_and_backoff (T := Nat)
      (fun _ => .returns (Result.fail (mkError "boom"))) 2 10).2.1 (fun i _ => rfl)
  exact h.trans (by decide)

/-- C2: `combineResults` on the empty list yields success wrapping the empty
list; when every element succeeds it yields success wrapping the values in
input order; and when the input is any all-success prefix followed by a
failing element and an arbitrary remainder, it returns that first failure,
with the returned error the very error of that element, independently of
everything after it. -/
theorem C2_combineResults_first_failure_wins {T : Type} :
    combineResults ([] : List (Result T)) = Result.ok (some [])
    ∧ (∀ rs : List (Result T), (∀ r ∈ rs, r.isSuccess = true) →
        combineResults rs = Result.ok (some (rs.map Result.value?)))
    ∧ (∀ (l1 : List (Result T)) (e : JsError) (c : Bool) (l2 : List (Result T)),
        (∀ r ∈ l1, r.isSuccess = true) →
        combineResults (l1 ++ .failRes e c :: l2) = Result.fail e
        ∧ (combineResults (l1 ++ .failRes e c :: l2)).error? = some e) := by
  refine ⟨rfl, ?_, ?_⟩
  · intro rs h
    have hmain := combineLoop_all_ok rs [] h
    simpa [combineResults] using hmain
  · intro l1 e c l2 h
    have hmain : combineResults (l1 ++ .failRes e c :: l2) = Result.fail e :=
      combineLoop_first_fail l1 [] e c l2 h
    exact ⟨hmain, by rw [hmain]; rfl⟩

/-- Witness for C2: `combineResults [ok 1, ok 2, ok 3]` is `ok [1, 2, 3]`,
and with a failure in second position the failure's own error is returned. -/
theorem C2_combineResults_first_failure_wins_witness :
    combineResults [Result.ok (some 1), Result.ok (some 2), Result.ok (some 3)] =
      Result.ok (some [some 1, some 2, some 3])
    ∧ combineResults
        [Result.ok (some 1), Result.failRes (mkError "boom") false, Result.ok (some 3)] =
      Result.fail (mkError "boom") := by
  constructor
  · have h := (C2_combineResults_first_failure_wins (T := Nat)).2.1
      [Result.ok (some 1), Result.ok (some 2), Result.ok (some 3)] (by decide)
    exact h.trans (by decide)
  · exact ((C2_combineResults_first_failure_wins (T := Nat)).2.2
      [Result.ok (some 1)] (mkError "boom") false [Result.ok (some 3)] (by decide)).1

/-- C3: `asyncMap` on a failure resolves to a failure carrying the same
error, invoking the transformer 0 times, whatever signal is supplied; and
on a success with a signal already aborted before the call it resolves to a
cancelled result (`isCancelled = true`), again invoking the transformer 0
times. -/
theorem C3_asyncMap_failure_and_aborted {T U : Type} :
    (∀ (e : JsError) (c : Bool) (f : Option T → FnOutcome (Option U))
        (abortSignal : Option AbortSignal),
        (Result.failRes e c : Result T).asyncMap f abortSignal = (Result.fail e, 0))
    ∧ (∀ (v : Option T) (f : Option T → FnOutcome (Option U)) (b : Bool),
        (Result.okRes v : Result T).asyncMap f (some ⟨true, b⟩) =
          (Result.cancelled (some "Operation was aborted"), 0)
        ∧ ((Result.okRes v : Result T).asyncMap f (some ⟨true, b⟩)).1.isCancelled = true) :=
  ⟨fun _ _ _ _ => rfl, fun _ _ _ => ⟨rfl, rfl⟩⟩

/-- C4: `Result.cancelled(operationId?)` builds a failure with
`isCancelled = true` whose error is a `CancellationError` carrying exactly
that `operationId`; the other factories (`ok`, `fail`) build results with
`isCancelled = false`. -/
theorem C4_cancelled_factory {T : Type} :
    (∀ operationId : Option String,
        (Result.cancelled operationId : Result T).isFailure = true
        ∧ (Result.cancelled operationId : Result T).isCancelled = true
        ∧ (Result.cancelled operationId : Result T).error? =
            some (mkCancellationError "Operation was cancelled" operationId)
        ∧ (mkCancellationError "Operation was cancelled" operationId).name =
            "CancellationError"
        ∧ (mkCancellationError "Operation was cancelled" operationId).operationId =
            operationId)
    ∧ (∀ v : Option T, (Result.ok v).isCancelled = false)
    ∧ (∀ e : JsError, (Result.fail e : Result T).isCancelled = false) :=
  ⟨fun _ => ⟨rfl, rfl, rfl, rfl, rfl⟩, fun _ => rfl, fun _ => rfl⟩

/-- C5: `flatMap` on a failure returns a failing result whose error is the
very error of the receiver (not a copy), invoking the transformer 0 times;
on a success it returns the transformer's result directly, with no extra
wrapping. -/
theorem C5_flatMap_shortcircuit {T U : Type} :
    (∀ (e : JsError) (c : Bool) (f : Option T → Result U),
        (Result.failRes e c).flatMapCount f = (Result.fail e, 0)
        ∧ ((Result.failRes e c).flatMap f).error? = some e)
    ∧ (∀ (v : Option T) (f : Option T → Result U),
        (Result.okRes v).flatMapCount f = (f v, 1)
        ∧ (Result.okRes v).flatMap f = f v) :=
  ⟨fun _ _ _ => ⟨rfl, rfl⟩, fun _ _ => ⟨rfl, rfl⟩⟩

/-- Counterexample to C6 as stated: for the thrown non-Error value
`"plain string"`, `tryCatchAsync` produces a `TechnicalError` whose message
is `"Technical Error: plain string"` — not, as `fromThrowable` does, a plain
error whose message is exactly `"plain string"`. -/
theorem C6_counterexample :
    (tryCatchAsync (.throws (.nonError "plain string")) : Result Unit) =
      Result.fail (mkTechnicalError "plain string")
    ∧ (mkTechnicalError "plain string").message = "Technical Error: plain string"
    ∧ "Technical Error: plain string" ≠ "plain string"
    ∧ (mkTechnicalError "plain string").name = "TechnicalError"
    ∧ (Result.fromThrowable (.throws (.nonError "plain string")) : Result Unit) =
      Result.fail (mkError "plain string")
    ∧ (mkError "plain string").message = "plain string" := by
  exact ⟨rfl, rfl, by decide, rfl, rfl, rfl⟩

/-- C6 (amended): `tryCatchAsync` normalizes a thrown non-Error value `x`
into a `TechnicalError` whose message is `"Technical Error: " ++ String(x)`
— unlike `fromThrowable`, which produces a plain `Error` whose message is
exactly `String(x)` with no prefix; thrown `Error` objects are propagated
unchanged by both. -/
theorem C6_tryCatchAsync_technical_normalization {T : Type} :
    (∀ s : String,
        (tryCatchAsync (.throws (.nonError s)) : Result T) =
          Result.fail (mkTechnicalError s)
        ∧ (mkTechnicalError s).message = "Technical Error: " ++ s)
    ∧ (∀ e : JsError,
        (tryCatchAsync (.throws (.errObj e)) : Result T) = Result.fail e
        ∧ (Result.fromThrowable (.throws (.errObj e)) : Result T) = Result.fail e)
    ∧ (∀ s : String,
        (Result.fromThrowable (.throws (.nonError s)) : Result T) = Result.fail (mkError s)
        ∧ (mkError s).message = s) :=
  ⟨fun _ => ⟨rfl, rfl⟩, fun _ => ⟨rfl, rfl⟩, fun _ => ⟨rfl, rfl⟩⟩

/-- C7: a `CancellationError` built with message `m` renders exactly
`"Cancellation: " ++ m`, never carrying the `"Technical Error: "` prefix its
`TechnicalError` base would add, while the other kinds chained through the
base behaviour do render their kind prefixes (`TimeoutError`, a fellow
`TechnicalError` subclass, keeps `"Technical Error: "`; `TechnicalError` and
`ValidationError` render theirs). -/
theorem C7_cancellation_message_format :
    (∀ (m : String) (opId : Option String),
        (mkCancellationError m opId).message = "Cancellation: " ++ m
        ∧ ∀ s : String, (mkCancellationError m opId).message ≠ "Technical Error: " ++ s)
    ∧ (∀ (operation : String) (timeoutMs : Nat), ∃ s : String,
        (mkTimeoutError operation timeoutMs).message = "Technical Error: " ++ s)
    ∧ (∀ m : String, (mkTechnicalError m).message = "Technical Error: " ++ m)
    ∧ (∀ m : String, (mkValidationError m).message = "Validation Error: " ++ m) := by
  refine ⟨fun m opId => ⟨rfl, fun s => ?_⟩, fun operation timeoutMs => ⟨_, rfl⟩,
    fun _ => rfl, fun _ => rfl⟩
  show "Cancellation: " ++ m ≠ "Technical Error: " ++ s
  exact cancellation_no_technical_head m s

/-- Witness for C7: the concrete `CancellationError` built by the library's
own cancelled factory renders `"Cancellation: Operation was cancelled"` and
differs from the message its `TechnicalError` base would have rendered. -/
theorem C7_cancellation_message_format_witness :
    (mkCancellationError "Operation was cancelled" none).message =
      "Cancellation: Operation was cancelled"
    ∧ (mkCancellationError "Operation was cancelled" none).message ≠
      "Technical Error: Cancellation: Operation was cancelled" :=
  ⟨(C7_cancellation_message_format.1 "Operation was cancelled" none).1,
    (C7_cancellation_message_format.1 "Operation was cancelled" none).2
      "Cancellation: Operation was cancelled"⟩

/-- C8: `toJSON` produces exactly `success v` for a success and exactly
`failure name message` for a failure, where `name` falls back to `"Error"`
and `message` to `"Unknown error"` when the error's field is absent (on a
JS `Error`, an unset field reads as the empty string). -/
theorem C8_toJSON_shape {T : Type} :
    (∀ v : Option T, (Result.okRes v : Result T).toJSON = ResultJSON.success v)
    ∧ (∀ (e : JsError) (c : Bool),
        (Result.failRes e c : Result T).toJSON =
          ResultJSON.failure (if e.name = "" then "Error" else e.name)
            (if e.message = "" then "Unknown error" else e.message)) :=
  ⟨fun _ => rfl, fun _ _ => rfl⟩

/-- C9 (implicit): the cancellation flag is not propagated by `map`,
`mapError` and `flatMap` — applied to a cancelled result (a failure with
`isCancelled = true` and error `e`), all three produce a result with
`isCancelled = false`, while the error payload is still `e` (`map`,
`flatMap`) or its image under the transformer (`mapError`). -/
theorem C9_cancellation_flag_not_propagated {T U : Type} :
    ∀ (e : JsError) (f : Option T → Option U) (g : JsError → JsError)
      (k : Option T → Result U),
      (Result.failRes e true : Result T).isCancelled = true
      ∧ ((Result.failRes e true : Result T).map f).isCancelled = false
      ∧ ((Result.failRes e true : Result T).map f).error? = some e
      ∧ ((Result.failRes e true : Result T).mapError g).isCancelled = false
      ∧ ((Result.failRes e true : Result T).mapError g).error? = some (g e)
      ∧ ((Result.failRes e true : Result T).flatMap k).isCancelled = false
      ∧ ((Result.failRes e true : Result T).flatMap k).error? = some e :=
  fun _ _ _ _ => ⟨rfl, rfl, rfl, rfl, rfl, rfl, rfl⟩

/-- C10 (implicit): whenever `asyncMap`, `asyncFlatMap` or `fromPromise`
resolves to a cancelled result because the abort signal was triggered —
eagerly (already aborted at the call) or during the race — the result is
exactly `Result.cancelled("Operation was aborted")`, whose
`CancellationError` carries `operationId = "Operation was aborted"` and
message `"Cancellation: Operation was cancelled"`; no caller-chosen
operation identifier reaches these signal-caused cancelled results. -/
theorem C10_abort_cancellation_identity {T U : Type} :
    (∀ (v : Option T) (f : Option T → FnOutcome (Option U)) (b : Bool),
        (Result.okRes v : Result T).asyncMap f (some ⟨true, b⟩) =
          (Result.cancelled (some "Operation was aborted"), 0)
        ∧ (Result.okRes v : Result T).asyncMap f (some ⟨false, true⟩) =
          (Result.cancelled (some "Operation was aborted"), 1))
    ∧ (∀ (v : Option T) (g : Option T → FnOutcome (Result U)) (b : Bool),
        (Result.okRes v : Result T).asyncFlatMap g (some ⟨true, b⟩) =
          (Result.cancelled (some "Operation was aborted"), 0)
        ∧ (Result.okRes v : Result T).asyncFlatMap g (some ⟨false, true⟩) =
          (Result.cancelled (some "Operation was aborted"), 1))
    ∧ (∀ (promise : FnOutcome (Option U)) (b : Bool),
        Result.fromPromise promise (some ⟨true, b⟩) =
          (Result.cancelled (some "Operation was aborted") : Result U)
        ∧ Result.fromPromise promise (some ⟨false, true⟩) =
          (Result.cancelled (some "Operation was aborted") : Result U))
    ∧ (Result.cancelled (some "Operation was aborted") : Result U).error? =
        some (mkCancellationError "Operation was cancelled" (some "Operation was aborted"))
    ∧ (mkCancellationError "Operation was cancelled"
        (some "Operation was aborted")).operationId = some "Operation was aborted"
    ∧ (mkCancellationError "Operation was cancelled"
        (some "Operation was aborted")).message =
        "Cancellation: Operation was cancelled" :=
  ⟨fun _ _ _ => ⟨rfl, rfl⟩, fun _ _ _ => ⟨rfl, rfl⟩, fun _ _ => ⟨rfl, rfl⟩, rfl, rfl, rfl⟩

end TSRM
